import Mathlib

/-!
Verification of the execution-policy core of ReFrame
(`reframe/frontend/executors/policies.py`) against its design
specification.  The Python source is shallowly embedded: test cases and
tasks are keyed by natural numbers, partition fullnames are modelled as
natural-number keys, Python sets become `Finset ℕ`, Python lists become
`List`, and a pipeline call that may raise `TaskExit` is modelled by an
explicit outcome flag on the task.
-/

namespace Reframe

/-! ### Task results and the dependency oracle

A `RegressionTask` (from `reframe.frontend.executors`) exposes the
predicates `failed`, `skipped`, `succeeded` consulted by the dependency
oracle.  We record just the terminal result of each indexed task.  The
task index maps a case key to `none` when the case was never submitted
(restored dependencies are not in the index). -/

inductive TaskResult where
  | pending
  | failed
  | skipped
  | succeeded
  deriving DecidableEq, Repr

/-- `deps_failed` (policies.py lines 483-486, and inlined at lines
110-112 of the serial policy): some indexed dependency has failed. -/
def deps_failed (idx : ℕ → Option TaskResult) (deps : List ℕ) : Bool :=
  deps.any fun c =>
    match idx c with
    | some r => r = TaskResult.failed
    | none => false

/-- `deps_skipped` (policies.py lines 493-496, and inlined at lines
114-115): some indexed dependency was skipped. -/
def deps_skipped (idx : ℕ → Option TaskResult) (deps : List ℕ) : Bool :=
  deps.any fun c =>
    match idx c with
    | some r => r = TaskResult.skipped
    | none => false

/-- `deps_succeeded` (policies.py lines 488-491): every indexed
dependency has succeeded. -/
def deps_succeeded (idx : ℕ → Option TaskResult) (deps : List ℕ) : Bool :=
  deps.all fun c =>
    match idx c with
    | some r => r = TaskResult.succeeded
    | none => true

/-- The action the policy takes on a waiting task after consulting the
dependency oracle. -/
inductive WaitAction where
  | skip
  | setup
  | fail
  | wait
  deriving DecidableEq, Repr

/-- Dependency dispatch of `AsynchronousExecutionPolicy.advance_wait`
(policies.py lines 338-371): the `if`/`elif` chain checks
`deps_skipped` first, then `deps_succeeded`, then `deps_failed`. -/
def advance_wait_action (idx : ℕ → Option TaskResult) (deps : List ℕ) :
    WaitAction :=
  if deps_skipped idx deps then .skip
  else if deps_succeeded idx deps then .setup
  else if deps_failed idx deps then .fail
  else .wait

/-- Dependency dispatch of `SerialExecutionPolicy.runcase`
(policies.py lines 107-123): first any failed dependency raises
`TaskDependencyError` (the task is failed), then any skipped dependency
skips the task, otherwise the pipeline proceeds (the serial policy
never waits: every dependency already ran to completion). -/
def serial_dep_action (idx : ℕ → Option TaskResult) (deps : List ℕ) :
    WaitAction :=
  if deps_failed idx deps then .fail
  else if deps_skipped idx deps then .skip
  else .setup

/-- A task index with case 0 failed and case 1 skipped. -/
def idxFailSkip : ℕ → Option TaskResult := fun c =>
  if c = 0 then some .failed
  else if c = 1 then some .skipped
  else none

/-! ### Queues and the asynchronous advance functions

The asynchronous policy keeps one local queue
(`_local_scheduler_tasks`) and one queue per partition
(`_scheduler_tasks[partname]`), both Python sets of tasks, plus the set
`_current_tasks`.  Tasks are keyed by a natural-number id, partition
fullnames by a natural-number key.  `policy_stage` is the per-task
stage attribute set by the policy. -/

inductive Stage where
  | waiting
  | ready_to_compile
  | compiling
  | ready_to_run
  | running
  | completed
  deriving DecidableEq, Repr

/-- The attributes of `task.check` consulted by the advance functions:
the `local` flag (written `is_local` here since `local` is reserved in
Lean), `build_locally`, the current partition's fullname key, and
whether the test is compile-only. -/
structure Check where
  is_local : Bool
  build_locally : Bool
  partname : ℕ
  is_compile_only : Bool
  deriving DecidableEq, Repr

/-- A task as seen by one advance step.  `compile_raises` / `run_raises`
tell whether `task.compile()` / `task.run()` raises `TaskExit` at this
step; `compile_complete` / `run_complete` give the result of
`task.compile_complete()` / `task.run_complete()`, with `none` standing
for a raised `TaskExit`. -/
structure Task where
  id : ℕ
  check : Check
  compile_raises : Bool
  run_raises : Bool
  compile_complete : Option Bool
  run_complete : Option Bool
  deriving DecidableEq, Repr

/-- The mutable policy state touched by the advance functions. -/
structure PolicyState where
  local_scheduler_tasks : Finset ℕ
  scheduler_tasks : ℕ → Finset ℕ
  current_tasks : Finset ℕ
  stage : ℕ → Stage

/-- `AsynchronousExecutionPolicy.advance_ready_to_compile`
(policies.py lines 373-398).  `rfm_max_jobs` is the local-queue cap,
`max_jobs` the per-partition caps (`self._max_jobs`).  Returns the
progress count together with the new state. -/
def advance_ready_to_compile (rfm_max_jobs : ℕ) (max_jobs : ℕ → ℕ)
    (st : PolicyState) (t : Task) : ℕ × PolicyState :=
  if t.check.is_local || t.check.build_locally then
    if st.local_scheduler_tasks.card ≤ rfm_max_jobs then
      if t.compile_raises then
        (1, { st with current_tasks := st.current_tasks.erase t.id })
      else
        (1, { st with
              stage := Function.update st.stage t.id .compiling,
              local_scheduler_tasks := insert t.id st.local_scheduler_tasks })
    else
      (0, st)
  else if (st.scheduler_tasks t.check.partname).card ≤
      max_jobs t.check.partname then
    if t.compile_raises then
      (1, { st with current_tasks := st.current_tasks.erase t.id })
    else
      (1, { st with
            stage := Function.update st.stage t.id .compiling,
            scheduler_tasks := Function.update st.scheduler_tasks
              t.check.partname
              (insert t.id (st.scheduler_tasks t.check.partname)) })
  else
    (0, st)

/-- `AsynchronousExecutionPolicy.advance_ready_to_run`
(policies.py lines 422-447): same shape as the compile admission, but
the local queue is chosen on the `local` flag alone. -/
def advance_ready_to_run (rfm_max_jobs : ℕ) (max_jobs : ℕ → ℕ)
    (st : PolicyState) (t : Task) : ℕ × PolicyState :=
  if t.check.is_local then
    if st.local_scheduler_tasks.card ≤ rfm_max_jobs then
      if t.run_raises then
        (1, { st with current_tasks := st.current_tasks.erase t.id })
      else
        (1, { st with
              stage := Function.update st.stage t.id .running,
              local_scheduler_tasks := insert t.id st.local_scheduler_tasks })
    else
      (0, st)
  else if (st.scheduler_tasks t.check.partname).card ≤
      max_jobs t.check.partname then
    if t.run_raises then
      (1, { st with current_tasks := st.current_tasks.erase t.id })
    else
      (1, { st with
            stage := Function.update st.stage t.id .running,
            scheduler_tasks := Function.update st.scheduler_tasks
              t.check.partname
              (insert t.id (st.scheduler_tasks t.check.partname)) })
  else
    (0, st)

/-- `AsynchronousExecutionPolicy.advance_compiling`
(policies.py lines 400-420).  When `compile_complete()` raises
`TaskExit` (`t.compile_complete = none`) the handler only removes the
task from `_current_tasks`; the queue-removal statements sit inside the
`try` body and are skipped. -/
def advance_compiling (st : PolicyState) (t : Task) : ℕ × PolicyState :=
  match t.compile_complete with
  | none => (1, { st with current_tasks := st.current_tasks.erase t.id })
  | some false => (0, st)
  | some true =>
    let st1 :=
      if t.check.is_local || t.check.build_locally then
        { st with local_scheduler_tasks :=
            st.local_scheduler_tasks.erase t.id }
      else
        { st with scheduler_tasks :=
                    Function.update st.scheduler_tasks t.check.partname
                      ((st.scheduler_tasks t.check.partname).erase t.id) }
    (1, { st1 with stage := Function.update st1.stage t.id
                     (if t.check.is_compile_only then .completed
                      else .ready_to_run) })

/-- `AsynchronousExecutionPolicy.advance_running`
(policies.py lines 449-465): same handler shape as
`advance_compiling`, on the `local` flag alone. -/
def advance_running (st : PolicyState) (t : Task) : ℕ × PolicyState :=
  match t.run_complete with
  | none => (1, { st with current_tasks := st.current_tasks.erase t.id })
  | some false => (0, st)
  | some true =>
    let st1 :=
      if t.check.is_local then
        { st with local_scheduler_tasks :=
            st.local_scheduler_tasks.erase t.id }
      else
        { st with scheduler_tasks :=
                    Function.update st.scheduler_tasks t.check.partname
                      ((st.scheduler_tasks t.check.partname).erase t.id) }
    (1, { st1 with stage := Function.update st1.stage t.id .completed })

/-! ### Reference-count decrement on success

`SerialExecutionPolicy.on_task_success` (policies.py lines 223-227) and
`AsynchronousExecutionPolicy.on_task_success` (lines 562-565) run the
identical loop: for each dependency case of the successful task that is
present in the task index, decrement that task's `ref_count`.  We embed
the index as a map from case key to the dependency task's `ref_count`
(`none` = case not in the index). -/

/-- One iteration of the decrement loop: `if c in self._task_index:
self._task_index[c].ref_count -= 1`. -/
def dec_dep (idx : ℕ → Option ℤ) (c : ℕ) : ℕ → Option ℤ :=
  match idx c with
  | some r => fun x => if x = c then some (r - 1) else idx x
  | none => idx

/-- The whole loop `for c in task.testcase.deps: ...` of
`on_task_success`, common to both policies. -/
def on_task_success_deps (idx : ℕ → Option ℤ) (deps : List ℕ) :
    ℕ → Option ℤ :=
  deps.foldl dec_dep idx

/-! ### Failure budget and abort fan-out

`on_task_failure` (identical in both policies, policies.py lines
184-207 and 523-546) increments `_num_failed_tasks` and raises
`FailureLimitError` once the counter reaches `max_failures`.  The
asynchronous drain loop (`exit`, lines 285-301) catches abort-class
exceptions, calls `_failall` (lines 498-502), and re-raises. -/

/-- The exceptions relevant to the drain loop's handlers. -/
inductive Exc where
  | taskExit
  | failureLimitError
  | fatalSignal
  deriving DecidableEq, Repr

/-- Modelled from the spec: `ABORT_REASONS` is imported from
`reframe.frontend.executors`, which is not part of the embedded
sources.  Per the spec (§4.8, §7), `FailureLimitError` and fatal host
signals are abort-class; a plain stage failure (`TaskExit`) is not. -/
def abort_reason : Exc → Bool
  | .failureLimitError => true
  | .fatalSignal => true
  | .taskExit => false

/-- The counter logic of `on_task_failure` (policies.py lines 523-524
and 543-546): increment `_num_failed_tasks`, then raise
`FailureLimitError` when the new value reaches `max_failures`.
Returns the new counter and the raised exception, if any. -/
def on_task_failure (num_failed_tasks max_failures : ℕ) : ℕ × Option Exc :=
  (num_failed_tasks + 1,
   if max_failures ≤ num_failed_tasks + 1 then some .failureLimitError
   else none)

/-- `AsynchronousExecutionPolicy._failall` (policies.py lines 498-502):
abort every current task with the given cause. -/
def _failall (cause : Exc) (current_tasks : List ℕ) : List (ℕ × Exc) :=
  current_tasks.map fun t => (t, cause)

/-- The exception handling of one drain iteration
(`AsynchronousExecutionPolicy.exit`, policies.py lines 288-301): when
the iteration body raises an abort-class exception, `_failall` aborts
every current task and the exception is re-raised; a non-abort
exception propagates without the fan-out.  Returns the aborted
(task, cause) pairs and the exception that escapes the iteration. -/
def exit_handle (current_tasks : List ℕ) (exc : Option Exc) :
    List (ℕ × Exc) × Option Exc :=
  match exc with
  | some e => if abort_reason e then (_failall e current_tasks, some e)
              else ([], some e)
  | none => ([], none)

/-! ### The poll controller

`_PollController` (policies.py lines 44-80).  The sleep duration is a
Python float; we embed it as a rational.  `time.time()` is passed in as
the current wall-clock value. -/

def SLEEP_MIN : ℚ := 1 / 10

def SLEEP_MAX : ℚ := 10

def SLEEP_INC_RATE : ℚ := 11 / 10

structure PollController where
  num_polls : ℕ
  num_tasks : ℕ
  sleep_duration : Option ℚ
  t_init : Option ℚ
  deriving DecidableEq, Repr

/-- The state of a freshly constructed `_PollController`
(policies.py lines 49-53). -/
def pollInit : PollController :=
  { num_polls := 0, num_tasks := 0, sleep_duration := none, t_init := none }

/-- `_PollController.running_tasks` (policies.py lines 55-70), with the
current wall-clock time `now` as an explicit argument. -/
def running_tasks (pc : PollController) (now : ℚ) (num_tasks : ℕ) :
    PollController :=
  let sd := pc.sleep_duration.getD SLEEP_MIN
  if pc.num_polls = 0 then
    { pc with sleep_duration := some sd, t_init := some now,
              num_tasks := num_tasks }
  else if pc.num_tasks ≠ num_tasks then
    { pc with sleep_duration := some SLEEP_MIN, num_tasks := num_tasks }
  else
    { pc with sleep_duration := some (min (sd * SLEEP_INC_RATE) SLEEP_MAX),
              num_tasks := num_tasks }

/-- The state change of `_PollController.snooze` (policies.py lines
72-80): the poll counter is incremented (the sleep itself and the debug
message have no effect on the controller state). -/
def snooze (pc : PollController) : PollController :=
  { pc with num_polls := pc.num_polls + 1 }

/-- One `running_tasks(...).snooze()` pair, the only way the policies
ever drive the controller (policies.py lines 146 and 298). -/
def pollStep (pc : PollController) (now : ℚ) (n : ℕ) : PollController :=
  snooze (running_tasks pc now n)

/-- The controller state after a drain has performed the given
sequence of `(now, n)` poll cycles starting from a fresh controller. -/
def runPairs (l : List (ℚ × ℕ)) : PollController :=
  l.foldl (fun pc p => pollStep pc p.1 p.2) pollInit

/-! ### Set iteration order

`advance_all` (policies.py lines 326-336) iterates `list(tasks)` where
`tasks` is the Python set `_current_tasks` built by `runcase`'s
`self._current_tasks.add(task)` (line 283); `_poll_tasks` (lines
306-324) iterates the Python sets `_scheduler_tasks[partname]`.  A
Python `set` enumerates each element exactly once but in no specified
order; an admissible iteration order is therefore any duplicate-free
list with exactly the set's elements. -/

/-- The set built by adding the given task keys in order
(`set.add` in submission order). -/
def insertAll (l : List ℕ) : Finset ℕ :=
  l.foldl (fun s a => insert a s) ∅

/-- `ord` is an admissible iteration order of the Python set `s`. -/
def isIterOrder (s : Finset ℕ) (ord : List ℕ) : Prop :=
  ord.Nodup ∧ ord.toFinset = s

instance (s : Finset ℕ) (ord : List ℕ) : Decidable (isIterOrder s ord) :=
  inferInstanceAs (Decidable (_ ∧ _))

/-! ### The retirement sweep

`_cleanup_all` (policies.py lines 34-41): for each task in the retired
list with `ref_count == 0`, call `task.cleanup(...)` with `TaskExit`
suppressed, then rebuild the list keeping only tasks with a non-zero
`ref_count`.  `RegressionTask.cleanup` is modelled from the spec
(§4.7): it runs the pipeline cleanup stage (recorded in the `cleaned`
flag) and may raise `TaskExit` (the `cleanup_raises` flag); it does not
touch `ref_count`. -/

structure RetTask where
  id : ℕ
  ref_count : ℤ
  cleaned : Bool
  cleanup_raises : Bool
  deriving DecidableEq, Repr

/-- Modelled from the spec: `RegressionTask.cleanup` (from
`reframe.frontend.executors`, not in the embedded sources) runs the
pipeline cleanup stage and raises `TaskExit` on failure. -/
def cleanupCall (t : RetTask) : Except Unit RetTask :=
  if t.cleanup_raises then .error () else .ok { t with cleaned := true }

/-- The loop body of `_cleanup_all` for one task: the cleanup call is
attempted only when `ref_count == 0`, and a raised `TaskExit` is
suppressed by `contextlib.suppress`, leaving the task as it was. -/
def sweepOne (t : RetTask) : RetTask :=
  if t.ref_count = 0 then
    match cleanupCall t with
    | .ok t2 => t2
    | .error _ => t
  else t

/-- `_cleanup_all` (policies.py lines 34-41).  Returns the new value of
the retired list (`tasks[:] = [t for t in tasks if t.ref_count]`,
non-zero truthiness) together with the list of tasks whose cleanup was
attempted, in visit order. -/
def _cleanup_all (tasks : List RetTask) : List RetTask × List RetTask :=
  ((tasks.map sweepOne).filter fun t => decide (t.ref_count ≠ 0),
   tasks.filter fun t => decide (t.ref_count = 0))

/-! ### Concrete instances used by the theorems below -/

/-- A remote check on partition 7 (neither `local` nor
`build_locally`). -/
def remoteCheck : Check :=
  { is_local := false, build_locally := false, partname := 7,
    is_compile_only := false }

/-- A check with the `local` flag set. -/
def localCheck : Check :=
  { is_local := true, build_locally := false, partname := 7,
    is_compile_only := false }

/-- A check with `build_locally` set but not `local`. -/
def buildLocallyCheck : Check :=
  { is_local := false, build_locally := true, partname := 7,
    is_compile_only := false }

/-- A remote task whose `compile_complete()` raises `TaskExit`. -/
def tCompileExit : Task :=
  { id := 3, check := remoteCheck, compile_raises := false,
    run_raises := false, compile_complete := none,
    run_complete := some false }

/-- A local task whose `run_complete()` raises `TaskExit`. -/
def tRunExit : Task :=
  { id := 4, check := localCheck, compile_raises := false,
    run_raises := false, compile_complete := some true,
    run_complete := none }

/-- A state with task 3 compiling in partition 7's queue and task 4
running in the local queue. -/
def stExit : PolicyState :=
  { local_scheduler_tasks := {4},
    scheduler_tasks := fun p => if p = 7 then {3} else ∅,
    current_tasks := {3, 4},
    stage := fun i =>
      if i = 3 then .compiling else if i = 4 then .running else .waiting }

/-- A remote task that is ready but whose jobs are still pending. -/
def tRemote : Task :=
  { id := 9, check := remoteCheck, compile_raises := false,
    run_raises := false, compile_complete := some false,
    run_complete := some false }

/-- A state whose partition-7 queue holds `max_jobs + 1 = 2` tasks
(admission must refuse) and whose local queue holds `rfm_max_jobs + 1 =
2` tasks, for caps of 1. -/
def stFull : PolicyState :=
  { local_scheduler_tasks := {4, 5},
    scheduler_tasks := fun p => if p = 7 then {3, 5} else ∅,
    current_tasks := {9},
    stage := fun _ => .ready_to_compile }

/-- Capacity 1 for every partition. -/
def capOne : ℕ → ℕ := fun _ => 1

/-- A task with `build_locally` but not `local`, exercising the
compile/run queue-choice asymmetry. -/
def tAsym : Task :=
  { id := 2, check := buildLocallyCheck, compile_raises := false,
    run_raises := false, compile_complete := some true,
    run_complete := some true }

/-- A state with all queues empty. -/
def stEmptyQ : PolicyState :=
  { local_scheduler_tasks := ∅,
    scheduler_tasks := fun _ => ∅,
    current_tasks := {2},
    stage := fun _ => .ready_to_compile }

/-- The per-partition and local queue-size invariant of the claim:
every queue holds at most its capacity plus one. -/
def queue_bounds (rfm_max_jobs : ℕ) (max_jobs : ℕ → ℕ)
    (st : PolicyState) : Prop :=
  st.local_scheduler_tasks.card ≤ rfm_max_jobs + 1 ∧
  ∀ p, (st.scheduler_tasks p).card ≤ max_jobs p + 1

/-- A task index for the decrement theorems: cases 0 and 1 are indexed
with `ref_count = 5`, everything else is unindexed. -/
def idxRef : ℕ → Option ℤ := fun c => if c ≤ 1 then some 5 else none

/-- A retired task with `ref_count = 0` whose cleanup raises
`TaskExit`. -/
def tCleanupExit : RetTask :=
  { id := 0, ref_count := 0, cleaned := false, cleanup_raises := true }

/-- A retired task with `ref_count = 0` whose cleanup succeeds. -/
def tCleanupOk : RetTask :=
  { id := 1, ref_count := 0, cleaned := false, cleanup_raises := false }

/-! ## Theorems -/

/-- Claim C1 (the code contradicts it): with dependency case 0 failed
and dependency case 1 skipped, both `deps_failed` and `deps_skipped`
hold, yet the asynchronous `advance_wait` skips the waiting task — its
`if`/`elif` chain tests `deps_skipped` before `deps_failed` — while the
serial policy's dependency check fails it.  So failure does not take
precedence over skip in the asynchronous policy. -/
theorem c1_failed_and_skipped_dep_behaviour :
    deps_failed idxFailSkip [0, 1] = true ∧
    deps_skipped idxFailSkip [0, 1] = true ∧
    advance_wait_action idxFailSkip [0, 1] = WaitAction.skip ∧
    advance_wait_action idxFailSkip [0, 1] ≠ WaitAction.fail ∧
    serial_dep_action idxFailSkip [0, 1] = WaitAction.fail := by
  decide

/-- Claim C2 (the code contradicts it): when `compile_complete()` (or
`run_complete()`) raises `TaskExit`, the `except TaskExit` handler of
`advance_compiling` / `advance_running` removes the task from
`_current_tasks` only; the queue-removal statements are inside the
`try` body and are skipped, so the task remains in the scheduler queue
it occupied.  Here task 3 stays in partition 7's queue and task 4 stays
in the local queue after their stage-failure exceptions. -/
theorem c2_task_exit_queue_leak :
    (advance_compiling stExit tCompileExit).1 = 1 ∧
    3 ∈ (advance_compiling stExit tCompileExit).2.scheduler_tasks 7 ∧
    3 ∉ (advance_compiling stExit tCompileExit).2.current_tasks ∧
    (advance_running stExit tRunExit).1 = 1 ∧
    4 ∈ (advance_running stExit tRunExit).2.local_scheduler_tasks ∧
    4 ∉ (advance_running stExit tRunExit).2.current_tasks := by
  decide

theorem sweepOne_of_ne (t : RetTask) (h : t.ref_count ≠ 0) :
    sweepOne t = t := by
  simp [sweepOne, h]

theorem map_sweepOne_of_all_ne (l : List RetTask)
    (h : ∀ t ∈ l, t.ref_count ≠ 0) : l.map sweepOne = l := by
  induction l with
  | nil => rfl
  | cons a tl ih =>
      simp only [List.map_cons]
      rw [sweepOne_of_ne a (h a (by simp)),
        ih (fun t ht => h t (by simp [ht]))]

theorem mem_cleanup_all_fst (tasks : List RetTask) (t : RetTask)
    (ht : t ∈ (_cleanup_all tasks).1) : t.ref_count ≠ 0 := by
  have := (List.mem_filter.mp ht).2
  simpa using this

/-- Claim C9: the retirement sweep is idempotent — applied to the list
produced by a first sweep, `_cleanup_all` attempts no cleanup and
leaves the list unchanged. -/
theorem c9_cleanup_all_idempotent (tasks : List RetTask) :
    _cleanup_all (_cleanup_all tasks).1 = ((_cleanup_all tasks).1, []) := by
  have hmem := mem_cleanup_all_fst tasks
  show (((_cleanup_all tasks).1.map sweepOne).filter
          fun t => decide (t.ref_count ≠ 0),
        (_cleanup_all tasks).1.filter fun t => decide (t.ref_count = 0)) = _
  rw [map_sweepOne_of_all_ne _ hmem,
    List.filter_eq_self.mpr (fun a ha => by simpa using hmem a ha),
    List.filter_eq_nil_iff.mpr (fun a ha => by simpa using hmem a ha)]

/-- Claim C10: if a retired task `t` with `ref_count = 0` raises
`TaskExit` from its cleanup, the exception is suppressed: the sweep
still attempts the cleanup of `t` and of every later zero-ref task,
`t` is removed from the retired list all the same, and a second sweep
never attempts `t` again. -/
theorem c10_cleanup_failure_suppressed (pre post : List RetTask)
    (t : RetTask) (h0 : t.ref_count = 0) (_hr : t.cleanup_raises = true) :
    t ∈ (_cleanup_all (pre ++ t :: post)).2 ∧
    (∀ u ∈ post, u.ref_count = 0 → u ∈ (_cleanup_all (pre ++ t :: post)).2) ∧
    t ∉ (_cleanup_all (pre ++ t :: post)).1 ∧
    t ∉ (_cleanup_all ((_cleanup_all (pre ++ t :: post)).1)).2 := by
  refine ⟨?_, ?_, ?_, ?_⟩
  · exact List.mem_filter.mpr ⟨by simp, by simp [h0]⟩
  · intro u hu hu0
    exact List.mem_filter.mpr ⟨by simp [hu], by simp [hu0]⟩
  · intro hmem
    exact absurd h0 (mem_cleanup_all_fst _ _ hmem)
  · intro hmem
    have ht1 : t ∈ (_cleanup_all (pre ++ t :: post)).1 :=
      (List.mem_filter.mp hmem).1
    exact absurd h0 (mem_cleanup_all_fst _ _ ht1)

theorem c10_cleanup_failure_suppressed_witness :
    tCleanupExit ∈ (_cleanup_all [tCleanupExit, tCleanupOk]).2 ∧
    tCleanupOk ∈ (_cleanup_all [tCleanupExit, tCleanupOk]).2 ∧
    tCleanupExit ∉ (_cleanup_all [tCleanupExit, tCleanupOk]).1 ∧
    tCleanupExit ∉ (_cleanup_all ((_cleanup_all [tCleanupExit, tCleanupOk]).1)).2 := by
  have h := c10_cleanup_failure_suppressed [] [tCleanupOk] tCleanupExit
    (by decide) (by decide)
  exact ⟨h.1, h.2.1 tCleanupOk (by decide) (by decide), h.2.2.1, h.2.2.2⟩

theorem mem_insertAll_aux (l : List ℕ) (s : Finset ℕ) (a : ℕ) :
    a ∈ l.foldl (fun s x => insert x s) s ↔ a ∈ s ∨ a ∈ l := by
  induction l generalizing s with
  | nil => simp
  | cons b tl ih =>
      simp only [List.foldl_cons, ih, Finset.mem_insert, List.mem_cons]
      tauto

theorem insertAll_eq_toFinset (l : List ℕ) : insertAll l = l.toFinset := by
  ext a
  simp [insertAll, mem_insertAll_aux]

/-- Claim C8 (counterexample): `[1, 0]` is an admissible iteration
order of the Python set built by inserting `0` then `1`, yet it is not
the insertion order — the sets `_current_tasks` and
`_scheduler_tasks[p]` are plain hash sets, whose enumeration order the
language leaves unspecified, so neither `advance_all` nor `_poll_tasks`
visits tasks in insertion order. -/
theorem c8_counterexample :
    isIterOrder (insertAll [0, 1]) [1, 0] ∧ [1, 0] ≠ [0, 1] := by
  decide

/-- Claim C8 (amended): an iteration of the set built from the
submitted keys visits each current task exactly once — any admissible
order is a permutation of the insertion order — but the order itself is
unspecified. -/
theorem c8_iteration_is_permutation (ins ord : List ℕ) (hnd : ins.Nodup)
    (h : isIterOrder (insertAll ins) ord) : ord.Perm ins := by
  obtain ⟨hord, heq⟩ := h
  exact List.perm_of_nodup_nodup_toFinset_eq hord hnd
    (by rw [heq, insertAll_eq_toFinset])

theorem c8_iteration_is_permutation_witness : ([1, 0] : List ℕ).Perm [0, 1] :=
  c8_iteration_is_permutation [0, 1] [1, 0] (by decide) (by decide)

theorem dec_dep_apply (idx : ℕ → Option ℤ) (c x : ℕ) :
    dec_dep idx c x =
      if x = c then (idx c).map (fun r => r - 1) else idx x := by
  unfold dec_dep
  cases h : idx c with
  | none => by_cases hx : x = c <;> simp [hx, h]
  | some r => by_cases hx : x = c <;> simp [hx, h]

theorem on_task_success_deps_count (deps : List ℕ) (idx : ℕ → Option ℤ)
    (d : ℕ) :
    on_task_success_deps idx deps d =
      (idx d).map (fun r => r - (deps.count d : ℤ)) := by
  induction deps generalizing idx with
  | nil => cases h : idx d <;> simp [on_task_success_deps, h]
  | cons c tl ih =>
      show (tl.foldl dec_dep (dec_dep idx c)) d = _
      rw [show tl.foldl dec_dep (dec_dep idx c) = on_task_success_deps
            (dec_dep idx c) tl from rfl, ih (dec_dep idx c), dec_dep_apply]
      by_cases hd : d = c
      · subst hd
        rw [if_pos rfl]
        cases h : idx d with
        | none => simp
        | some r =>
            simp [h, List.count_cons]
            omega
      · have h1 : (d == c) = false := beq_eq_false_iff_ne.mpr hd
        have h2 : (c == d) = false := beq_eq_false_iff_ne.mpr (Ne.symm hd)
        rw [if_neg hd]
        simp [List.count_cons, h1, h2]

/-- Claim C4: the `on_task_success` dependency loop, identical in the
serial and asynchronous policies, decrements the `ref_count` of each
indexed dependency of the successful task exactly once, and never
touches a dependency that is not in the task index (`none` stays
`none`): for duplicate-free `deps`, an indexed dependency case is
decremented by one exactly when it occurs in `deps`. -/
theorem c4_ref_count_decremented_once (idx : ℕ → Option ℤ) (deps : List ℕ)
    (d : ℕ) (hnd : deps.Nodup) :
    on_task_success_deps idx deps d =
      (idx d).map (fun r => r - if d ∈ deps then 1 else 0) := by
  rw [on_task_success_deps_count]
  by_cases hd : d ∈ deps
  · rw [List.count_eq_one_of_mem hnd hd]
    simp [hd]
  · rw [List.count_eq_zero_of_not_mem hd]
    simp [hd]

theorem c4_ref_count_decremented_once_witness :
    on_task_success_deps idxRef [0, 2] 0 = some 4 ∧
    on_task_success_deps idxRef [0, 2] 1 = some 5 ∧
    on_task_success_deps idxRef [0, 2] 2 = none :=
  ⟨(c4_ref_count_decremented_once idxRef [0, 2] 0 (by decide)).trans
      (by decide),
   (c4_ref_count_decremented_once idxRef [0, 2] 1 (by decide)).trans
      (by decide),
   (c4_ref_count_decremented_once idxRef [0, 2] 2 (by decide)).trans
      (by decide)⟩

/-- Claim C5: `on_task_failure` increments `_num_failed_tasks` by one
on every call and raises `FailureLimitError` exactly when the new
counter has reached `max_failures`; `FailureLimitError` is abort-class,
and the drain loop's handler reacts to an abort-class exception by
aborting every current task with it (`_failall`) and re-raising it. -/
theorem c5_failure_budget (n m : ℕ) (ts : List ℕ) (t : ℕ) (ht : t ∈ ts) :
    (on_task_failure n m).1 = n + 1 ∧
    ((on_task_failure n m).2 = some Exc.failureLimitError ↔ m ≤ n + 1) ∧
    abort_reason Exc.failureLimitError = true ∧
    (exit_handle ts (some Exc.failureLimitError)).1 =
      _failall Exc.failureLimitError ts ∧
    (t, Exc.failureLimitError) ∈
      (exit_handle ts (some Exc.failureLimitError)).1 ∧
    (exit_handle ts (some Exc.failureLimitError)).2 =
      some Exc.failureLimitError := by
  refine ⟨rfl, ?_, rfl, rfl, ?_, rfl⟩
  · unfold on_task_failure
    split_ifs with h <;> simp_all
  · show (t, Exc.failureLimitError) ∈ _failall Exc.failureLimitError ts
    exact List.mem_map.mpr ⟨t, ht, rfl⟩

theorem c5_failure_budget_witness :
    (on_task_failure 0 1).1 = 1 ∧
    ((on_task_failure 0 1).2 = some Exc.failureLimitError ↔ 1 ≤ 1) ∧
    abort_reason Exc.failureLimitError = true ∧
    (exit_handle [5] (some Exc.failureLimitError)).1 =
      _failall Exc.failureLimitError [5] ∧
    (5, Exc.failureLimitError) ∈
      (exit_handle [5] (some Exc.failureLimitError)).1 ∧
    (exit_handle [5] (some Exc.failureLimitError)).2 =
      some Exc.failureLimitError :=
  c5_failure_budget 0 1 [5] 5 (by decide)

theorem running_tasks_num_polls (pc : PollController) (now : ℚ) (n : ℕ) :
    (running_tasks pc now n).num_polls = pc.num_polls := by
  unfold running_tasks
  split_ifs <;> rfl

theorem pollStep_num_polls (pc : PollController) (now : ℚ) (n : ℕ) :
    (pollStep pc now n).num_polls = pc.num_polls + 1 := by
  show (running_tasks pc now n).num_polls + 1 = _
  rw [running_tasks_num_polls]

theorem foldl_pollStep_num_polls (l : List (ℚ × ℕ)) (pc : PollController) :
    (l.foldl (fun pc p => pollStep pc p.1 p.2) pc).num_polls =
      pc.num_polls + l.length := by
  induction l generalizing pc with
  | nil => rfl
  | cons a tl ih =>
      rw [List.foldl_cons, ih, pollStep_num_polls, List.length_cons]
      omega

theorem runPairs_num_polls (l : List (ℚ × ℕ)) :
    (runPairs l).num_polls = l.length := by
  rw [runPairs, foldl_pollStep_num_polls]
  simp [pollInit]

/-- Claim C7: in the only usage pattern of `_PollController`
(`running_tasks(n).snooze()` pairs), the first call initialises the
sleep interval to `SLEEP_MIN` and records the wall clock in `_t_init`;
every later call resets the interval to `SLEEP_MIN` when `n` differs
from the previously recorded task count and otherwise multiplies it by
`SLEEP_INC_RATE`, capping at `SLEEP_MAX`. -/
theorem c7_poll_interval_adaptation (l : List (ℚ × ℕ)) (hne : l ≠ [])
    (now : ℚ) (n : ℕ) (s : ℚ)
    (hs : (runPairs l).sleep_duration = some s) :
    (running_tasks pollInit now n).sleep_duration = some SLEEP_MIN ∧
    (running_tasks pollInit now n).t_init = some now ∧
    (running_tasks (runPairs l) now n).sleep_duration =
      some (if (runPairs l).num_tasks ≠ n then SLEEP_MIN
            else min (s * SLEEP_INC_RATE) SLEEP_MAX) := by
  have hnp : (runPairs l).num_polls ≠ 0 := by
    rw [runPairs_num_polls]
    intro h
    exact hne (List.length_eq_zero.mp h)
  refine ⟨rfl, rfl, ?_⟩
  by_cases h : (runPairs l).num_tasks ≠ n
  · simp [running_tasks, hnp, h]
  · simp [running_tasks, hnp, h, hs]

theorem artc_progress (R : ℕ) (M : ℕ → ℕ) (st : PolicyState) (t : Task) :
    ((advance_ready_to_compile R M st t).1 = 1 ↔
      (if (t.check.is_local || t.check.build_locally) = true
       then st.local_scheduler_tasks.card ≤ R
       else (st.scheduler_tasks t.check.partname).card ≤
         M t.check.partname)) ∧
    ((advance_ready_to_compile R M st t).1 = 0 →
      (advance_ready_to_compile R M st t).2 = st) := by
  unfold advance_ready_to_compile
  by_cases h1 : (t.check.is_local || t.check.build_locally) = true
  · rw [if_pos h1, if_pos h1]
    by_cases h2 : st.local_scheduler_tasks.card ≤ R
    · rw [if_pos h2]
      by_cases h3 : t.compile_raises = true
      · rw [if_pos h3]
        exact ⟨by simp [h2], by simp⟩
      · rw [if_neg h3]
        exact ⟨by simp [h2], by simp⟩
    · rw [if_neg h2]
      exact ⟨by simp [h2], fun _ => rfl⟩
  · rw [if_neg h1, if_neg h1]
    by_cases h2 : (st.scheduler_tasks t.check.partname).card ≤
        M t.check.partname
    · rw [if_pos h2]
      by_cases h3 : t.compile_raises = true
      · rw [if_pos h3]
        exact ⟨by simp [h2], by simp⟩
      · rw [if_neg h3]
        exact ⟨by simp [h2], by simp⟩
    · rw [if_neg h2]
      exact ⟨by simp [h2], fun _ => rfl⟩

theorem artr_progress (R : ℕ) (M : ℕ → ℕ) (st : PolicyState) (t : Task) :
    ((advance_ready_to_run R M st t).1 = 1 ↔
      (if t.check.is_local = true
       then st.local_scheduler_tasks.card ≤ R
       else (st.scheduler_tasks t.check.partname).card ≤
         M t.check.partname)) ∧
    ((advance_ready_to_run R M st t).1 = 0 →
      (advance_ready_to_run R M st t).2 = st) := by
  unfold advance_ready_to_run
  by_cases h1 : t.check.is_local = true
  · rw [if_pos h1, if_pos h1]
    by_cases h2 : st.local_scheduler_tasks.card ≤ R
    · rw [if_pos h2]
      by_cases h3 : t.run_raises = true
      · rw [if_pos h3]
        exact ⟨by simp [h2], by simp⟩
      · rw [if_neg h3]
        exact ⟨by simp [h2], by simp⟩
    · rw [if_neg h2]
      exact ⟨by simp [h2], fun _ => rfl⟩
  · rw [if_neg h1, if_neg h1]
    by_cases h2 : (st.scheduler_tasks t.check.partname).card ≤
        M t.check.partname
    · rw [if_pos h2]
      by_cases h3 : t.run_raises = true
      · rw [if_pos h3]
        exact ⟨by simp [h2], by simp⟩
      · rw [if_neg h3]
        exact ⟨by simp [h2], by simp⟩
    · rw [if_neg h2]
      exact ⟨by simp [h2], fun _ => rfl⟩

theorem update_insert_bounds (M : ℕ → ℕ) (f : ℕ → Finset ℕ) (q i : ℕ)
    (hq : (f q).card ≤ M q) (hp : ∀ p, (f p).card ≤ M p + 1) :
    ∀ p, ((Function.update f q (insert i (f q))) p).card ≤ M p + 1 := by
  intro p
  by_cases hpq : p = q
  · subst hpq
    rw [Function.update_same]
    exact le_trans (Finset.card_insert_le _ _) (by omega)
  · rw [Function.update_noteq hpq]
    exact hp p

theorem update_erase_bounds (M : ℕ → ℕ) (f : ℕ → Finset ℕ) (q i : ℕ)
    (hp : ∀ p, (f p).card ≤ M p + 1) :
    ∀ p, ((Function.update f q ((f q).erase i)) p).card ≤ M p + 1 := by
  intro p
  by_cases hpq : p = q
  · subst hpq
    rw [Function.update_same]
    exact le_trans (Finset.card_erase_le) (hp _)
  · rw [Function.update_noteq hpq]
    exact hp p

theorem artc_bounds (R : ℕ) (M : ℕ → ℕ) (st : PolicyState) (t : Task)
    (hb : queue_bounds R M st) :
    queue_bounds R M (advance_ready_to_compile R M st t).2 := by
  obtain ⟨hl, hp⟩ := hb
  unfold advance_ready_to_compile
  by_cases h1 : (t.check.is_local || t.check.build_locally) = true
  · rw [if_pos h1]
    by_cases h2 : st.local_scheduler_tasks.card ≤ R
    · rw [if_pos h2]
      by_cases h3 : t.compile_raises = true
      · rw [if_pos h3]
        exact ⟨hl, hp⟩
      · rw [if_neg h3]
        exact ⟨le_trans (Finset.card_insert_le _ _) (by omega), hp⟩
    · rw [if_neg h2]
      exact ⟨hl, hp⟩
  · rw [if_neg h1]
    by_cases h2 : (st.scheduler_tasks t.check.partname).card ≤
        M t.check.partname
    · rw [if_pos h2]
      by_cases h3 : t.compile_raises = true
      · rw [if_pos h3]
        exact ⟨hl, hp⟩
      · rw [if_neg h3]
        exact ⟨hl, update_insert_bounds M _ _ _ h2 hp⟩
    · rw [if_neg h2]
      exact ⟨hl, hp⟩

theorem artr_bounds (R : ℕ) (M : ℕ → ℕ) (st : PolicyState) (t : Task)
    (hb : queue_bounds R M st) :
    queue_bounds R M (advance_ready_to_run R M st t).2 := by
  obtain ⟨hl, hp⟩ := hb
  unfold advance_ready_to_run
  by_cases h1 : t.check.is_local = true
  · rw [if_pos h1]
    by_cases h2 : st.local_scheduler_tasks.card ≤ R
    · rw [if_pos h2]
      by_cases h3 : t.run_raises = true
      · rw [if_pos h3]
        exact ⟨hl, hp⟩
      · rw [if_neg h3]
        exact ⟨le_trans (Finset.card_insert_le _ _) (by omega), hp⟩
    · rw [if_neg h2]
      exact ⟨hl, hp⟩
  · rw [if_neg h1]
    by_cases h2 : (st.scheduler_tasks t.check.partname).card ≤
        M t.check.partname
    · rw [if_pos h2]
      by_cases h3 : t.run_raises = true
      · rw [if_pos h3]
        exact ⟨hl, hp⟩
      · rw [if_neg h3]
        exact ⟨hl, update_insert_bounds M _ _ _ h2 hp⟩
    · rw [if_neg h2]
      exact ⟨hl, hp⟩

theorem ac_bounds (R : ℕ) (M : ℕ → ℕ) (st : PolicyState) (t : Task)
    (hb : queue_bounds R M st) :
    queue_bounds R M (advance_compiling st t).2 := by
  obtain ⟨hl, hp⟩ := hb
  unfold advance_compiling
  cases h : t.compile_complete with
  | none => exact ⟨hl, hp⟩
  | some b =>
    cases b with
    | false => exact ⟨hl, hp⟩
    | true =>
      by_cases h1 : (t.check.is_local || t.check.build_locally) = true
      · simp only [if_pos h1]
        exact ⟨le_trans (Finset.card_erase_le) hl, hp⟩
      · simp only [if_neg h1]
        exact ⟨hl, update_erase_bounds M _ _ _ hp⟩

theorem ar_bounds (R : ℕ) (M : ℕ → ℕ) (st : PolicyState) (t : Task)
    (hb : queue_bounds R M st) :
    queue_bounds R M (advance_running st t).2 := by
  obtain ⟨hl, hp⟩ := hb
  unfold advance_running
  cases h : t.run_complete with
  | none => exact ⟨hl, hp⟩
  | some b =>
    cases b with
    | false => exact ⟨hl, hp⟩
    | true =>
      by_cases h1 : t.check.is_local = true
      · simp only [if_pos h1]
        exact ⟨le_trans (Finset.card_erase_le) hl, hp⟩
      · simp only [if_neg h1]
        exact ⟨hl, update_erase_bounds M _ _ _ hp⟩

/-- Claim C3: admission is inclusive — `advance_ready_to_compile` /
`advance_ready_to_run` start the stage (progress 1) exactly when the
chosen queue's size is at most its capacity (`rfm_max_jobs` for the
local queue, the partition's `max_jobs` otherwise); when the size
exceeds the capacity they return 0 and leave the state untouched, so
the task retries next cycle.  Consequently every queue-touching
advance step preserves the bound `size ≤ capacity + 1` on the local
queue and on every partition queue. -/
theorem c3_admission_inclusive_cap (R : ℕ) (M : ℕ → ℕ)
    (st : PolicyState) (t : Task) :
    ((advance_ready_to_compile R M st t).1 = 1 ↔
      (if (t.check.is_local || t.check.build_locally) = true
       then st.local_scheduler_tasks.card ≤ R
       else (st.scheduler_tasks t.check.partname).card ≤
         M t.check.partname)) ∧
    ((advance_ready_to_compile R M st t).1 = 0 →
      (advance_ready_to_compile R M st t).2 = st) ∧
    ((advance_ready_to_run R M st t).1 = 1 ↔
      (if t.check.is_local = true
       then st.local_scheduler_tasks.card ≤ R
       else (st.scheduler_tasks t.check.partname).card ≤
         M t.check.partname)) ∧
    ((advance_ready_to_run R M st t).1 = 0 →
      (advance_ready_to_run R M st t).2 = st) ∧
    (queue_bounds R M st →
      queue_bounds R M (advance_ready_to_compile R M st t).2 ∧
      queue_bounds R M (advance_ready_to_run R M st t).2 ∧
      queue_bounds R M (advance_compiling st t).2 ∧
      queue_bounds R M (advance_running st t).2) :=
  ⟨(artc_progress R M st t).1, (artc_progress R M st t).2,
   (artr_progress R M st t).1, (artr_progress R M st t).2,
   fun hb => ⟨artc_bounds R M st t hb, artr_bounds R M st t hb,
     ac_bounds R M st t hb, ar_bounds R M st t hb⟩⟩

theorem c3_admission_inclusive_cap_witness :
    (advance_ready_to_compile 1 capOne stFull tRemote).2 = stFull ∧
    (advance_ready_to_run 1 capOne stFull tRemote).2 = stFull ∧
    (queue_bounds 1 capOne
        (advance_ready_to_compile 1 capOne stFull tRemote).2 ∧
      queue_bounds 1 capOne
        (advance_ready_to_run 1 capOne stFull tRemote).2 ∧
      queue_bounds 1 capOne (advance_compiling stFull tRemote).2 ∧
      queue_bounds 1 capOne (advance_running stFull tRemote).2) := by
  have h := c3_admission_inclusive_cap 1 capOne stFull tRemote
  have hb : queue_bounds 1 capOne stFull := by
    refine ⟨by decide, fun p => ?_⟩
    by_cases hp : p = 7
    · subst hp
      decide
    · simp [stFull, hp, capOne]
  exact ⟨h.2.1 (by decide), h.2.2.2.1 (by decide), h.2.2.2.2 hb⟩

theorem artc_queue_choice (R : ℕ) (M : ℕ → ℕ) (st : PolicyState) (t : Task)
    (hl : st.local_scheduler_tasks.card ≤ R)
    (hq : (st.scheduler_tasks t.check.partname).card ≤ M t.check.partname)
    (hcr : t.compile_raises = false)
    (hnl : t.id ∉ st.local_scheduler_tasks)
    (hns : ∀ p, t.id ∉ st.scheduler_tasks p) :
    (advance_ready_to_compile R M st t).2.stage t.id = Stage.compiling ∧
    (t.id ∈ (advance_ready_to_compile R M st t).2.local_scheduler_tasks ↔
      (t.check.is_local || t.check.build_locally) = true) ∧
    (t.id ∈ (advance_ready_to_compile R M st t).2.scheduler_tasks
        t.check.partname ↔
      (t.check.is_local || t.check.build_locally) = false) := by
  unfold advance_ready_to_compile
  have hcr2 : ¬(t.compile_raises = true) := by simp [hcr]
  by_cases h1 : (t.check.is_local || t.check.build_locally) = true
  · rw [if_pos h1, if_pos hl, if_neg hcr2]
    refine ⟨Function.update_same _ _ _, by simp [h1], ?_⟩
    simp [hns t.check.partname, h1]
  · rw [if_neg h1, if_pos hq, if_neg hcr2]
    have h1f : (t.check.is_local || t.check.build_locally) = false := by
      simpa using h1
    refine ⟨Function.update_same _ _ _, by simp [hnl, h1f], ?_⟩
    rw [show ({ st with
          stage := Function.update st.stage t.id Stage.compiling,
          scheduler_tasks := Function.update st.scheduler_tasks
            t.check.partname
            (insert t.id (st.scheduler_tasks t.check.partname))
        } : PolicyState).scheduler_tasks =
        Function.update st.scheduler_tasks t.check.partname
          (insert t.id (st.scheduler_tasks t.check.partname)) from rfl,
      Function.update_same]
    simp [h1f]

theorem artr_queue_choice (R : ℕ) (M : ℕ → ℕ) (st : PolicyState) (t : Task)
    (hl : st.local_scheduler_tasks.card ≤ R)
    (hq : (st.scheduler_tasks t.check.partname).card ≤ M t.check.partname)
    (hrr : t.run_raises = false)
    (hnl : t.id ∉ st.local_scheduler_tasks)
    (hns : ∀ p, t.id ∉ st.scheduler_tasks p) :
    (advance_ready_to_run R M st t).2.stage t.id = Stage.running ∧
    (t.id ∈ (advance_ready_to_run R M st t).2.local_scheduler_tasks ↔
      t.check.is_local = true) ∧
    (t.id ∈ (advance_ready_to_run R M st t).2.scheduler_tasks
        t.check.partname ↔
      t.check.is_local = false) := by
  unfold advance_ready_to_run
  have hrr2 : ¬(t.run_raises = true) := by simp [hrr]
  by_cases h1 : t.check.is_local = true
  · rw [if_pos h1, if_pos hl, if_neg hrr2]
    refine ⟨Function.update_same _ _ _, by simp [h1], ?_⟩
    simp [hns t.check.partname, h1]
  · rw [if_neg h1, if_pos hq, if_neg hrr2]
    have h1f : t.check.is_local = false := by simpa using h1
    refine ⟨Function.update_same _ _ _, by simp [hnl, h1f], ?_⟩
    rw [show ({ st with
          stage := Function.update st.stage t.id Stage.running,
          scheduler_tasks := Function.update st.scheduler_tasks
            t.check.partname
            (insert t.id (st.scheduler_tasks t.check.partname))
        } : PolicyState).scheduler_tasks =
        Function.update st.scheduler_tasks t.check.partname
          (insert t.id (st.scheduler_tasks t.check.partname)) from rfl,
      Function.update_same]
    simp [h1f]

/-- Claim C6: under admission (both queues under their caps) and with
the stage call not raising, the compile stage of a task enters the
local queue exactly when `local` or `build_locally` is set (otherwise
its partition's queue), while the run stage enters the local queue
exactly when `local` alone is set: `build_locally` influences the
compile-stage queue choice only. -/
theorem c6_local_queue_asymmetry (R : ℕ) (M : ℕ → ℕ) (st : PolicyState)
    (t : Task)
    (hl : st.local_scheduler_tasks.card ≤ R)
    (hq : (st.scheduler_tasks t.check.partname).card ≤ M t.check.partname)
    (hcr : t.compile_raises = false) (hrr : t.run_raises = false)
    (hnl : t.id ∉ st.local_scheduler_tasks)
    (hns : ∀ p, t.id ∉ st.scheduler_tasks p) :
    ((advance_ready_to_compile R M st t).2.stage t.id = Stage.compiling ∧
     (t.id ∈ (advance_ready_to_compile R M st t).2.local_scheduler_tasks ↔
       (t.check.is_local || t.check.build_locally) = true) ∧
     (t.id ∈ (advance_ready_to_compile R M st t).2.scheduler_tasks
         t.check.partname ↔
       (t.check.is_local || t.check.build_locally) = false)) ∧
    ((advance_ready_to_run R M st t).2.stage t.id = Stage.running ∧
     (t.id ∈ (advance_ready_to_run R M st t).2.local_scheduler_tasks ↔
       t.check.is_local = true) ∧
     (t.id ∈ (advance_ready_to_run R M st t).2.scheduler_tasks
         t.check.partname ↔
       t.check.is_local = false)) :=
  ⟨artc_queue_choice R M st t hl hq hcr hnl hns,
   artr_queue_choice R M st t hl hq hrr hnl hns⟩

theorem c6_local_queue_asymmetry_witness :
    ((advance_ready_to_compile 1 capOne stEmptyQ tAsym).2.stage 2 =
        Stage.compiling ∧
     (2 ∈ (advance_ready_to_compile 1 capOne stEmptyQ tAsym).2.local_scheduler_tasks ↔
       (tAsym.check.is_local || tAsym.check.build_locally) = true) ∧
     (2 ∈ (advance_ready_to_compile 1 capOne stEmptyQ tAsym).2.scheduler_tasks 7 ↔
       (tAsym.check.is_local || tAsym.check.build_locally) = false)) ∧
    ((advance_ready_to_run 1 capOne stEmptyQ tAsym).2.stage 2 =
        Stage.running ∧
     (2 ∈ (advance_ready_to_run 1 capOne stEmptyQ tAsym).2.local_scheduler_tasks ↔
       tAsym.check.is_local = true) ∧
     (2 ∈ (advance_ready_to_run 1 capOne stEmptyQ tAsym).2.scheduler_tasks 7 ↔
       tAsym.check.is_local = false)) :=
  c6_local_queue_asymmetry 1 capOne stEmptyQ tAsym (by decide) (by decide)
    rfl rfl (by decide) (fun p => Finset.not_mem_empty 2)

theorem c7_poll_interval_adaptation_witness :
    (running_tasks pollInit 2 1).sleep_duration = some SLEEP_MIN ∧
    (running_tasks pollInit 2 1).t_init = some (2 : ℚ) ∧
    (running_tasks (runPairs [(0, 1)]) 2 1).sleep_duration =
      some (if (runPairs [(0, 1)]).num_tasks ≠ 1 then SLEEP_MIN
            else min (SLEEP_MIN * SLEEP_INC_RATE) SLEEP_MAX) :=
  c7_poll_interval_adaptation [(0, 1)] (by simp) 2 1 SLEEP_MIN
    (by simp [runPairs, pollStep, snooze, running_tasks, pollInit])

end Reframe
